import Mathlib

/-!
Verification of the ballistic interpolation and adjustment engine of
RaspberrypiScopeV1.py (class BallisticCalculator).

Numeric model: Python floats are modelled exactly as rationals (ℚ) for the
table/interpolation/click arithmetic, and as reals (ℝ) where the code calls
into trigonometry (math.sin, math.radians).  Python's round (round half to
even) is modelled explicitly by pyRoundQ / pyRoundR.

A lookup table (a Python dict such as self.drop_data) is modelled as an
association list of (distance, value) pairs; Table.keys are the dict's keys
and Table.val its lookup.  The reference tables are concrete data below.
-/

/-- A ballistic table: a Python dict from distance (yards) to inches. -/
structure Table where
  entries : List (ℚ × ℚ)

/-- The dict's key list (insertion order, as in Python). -/
def Table.keys (t : Table) : List ℚ :=
  t.entries.map Prod.fst

/-- Dict lookup `t[d]`; the default 0 is never reached when `d` is a key. -/
def Table.val (t : Table) (d : ℚ) : ℚ :=
  ((t.entries.lookup d).getD 0)

/-- Insert into a sorted list, ascending. -/
def insertKey (x : ℚ) : List ℚ → List ℚ
  | [] => [x]
  | y :: ys => if x ≤ y then x :: y :: ys else y :: insertKey x ys

/-- Python's sorted(...) on the key list (ascending insertion sort). -/
def sortKeys : List ℚ → List ℚ
  | [] => []
  | x :: xs => insertKey x (sortKeys xs)

/-- Python's min(...) on a nonempty list (0 on [], unreachable in all uses). -/
def minKey : List ℚ → ℚ
  | [] => 0
  | [x] => x
  | x :: xs => min x (minKey xs)

/-- Python's max(...) on a nonempty list (0 on [], unreachable in all uses). -/
def maxKey : List ℚ → ℚ
  | [] => 0
  | [x] => x
  | x :: xs => max x (maxKey xs)

/-- The linear interpolation value `v1 + (v2 - v1) * ((d - d1) / (d2 - d1))`
computed by both lookups. -/
def interpVal (t : Table) (d1 d2 d : ℚ) : ℚ :=
  t.val d1 + (t.val d2 - t.val d1) * ((d - d1) / (d2 - d1))

/-- The `for i in range(len(distances) - 1)` scan of get_bullet_drop: return
on the first adjacent pair `d1 < d < d2`. -/
def findPair (d : ℚ) : List ℚ → Option (ℚ × ℚ)
  | d1 :: d2 :: rest =>
      if d1 < d ∧ d < d2 then some (d1, d2) else findPair d (d2 :: rest)
  | _ => none

/-- The `for` scan inside calculate_wind_drift: the accumulator base_drift
is (re)assigned at every adjacent pair `d1 < d < d2` and the loop runs on. -/
def baseLoop (t : Table) (d : ℚ) : List ℚ → Option ℚ → Option ℚ
  | d1 :: d2 :: rest, acc =>
      baseLoop t d (d2 :: rest)
        (if d1 < d ∧ d < d2 then some (interpVal t d1 d2 d) else acc)
  | _, acc => acc

/-- BallisticCalculator.get_bullet_drop, over an arbitrary drop table. -/
def get_bullet_drop_t (t : Table) (d : ℚ) : Option ℚ :=
  let distances := sortKeys t.keys
  if d ∈ t.keys then some (t.val d)
  else if d < minKey distances ∨ maxKey distances < d then none
  else
    match findPair d distances with
    | some (d1, d2) => some (interpVal t d1 d2 d)
    | none => none

/-- Lines 87-100 of calculate_wind_drift: the base_drift lookup for a 10 mph
wind, over an arbitrary drift table. -/
def wind_base_drift_t (t : Table) (d : ℚ) : Option ℚ :=
  if d ∈ t.keys then some (t.val d)
  else baseLoop t d (sortKeys t.keys) none

/-- math.radians. -/
noncomputable def radians (a : ℚ) : ℝ :=
  (a : ℝ) * Real.pi / 180

/-- BallisticCalculator.calculate_wind_drift over an arbitrary drift table:
crosswind decomposition, 10 mph rescaling, and the left/right sign. -/
noncomputable def calculate_wind_drift_t (t : Table) (d s a : ℚ) : Option ℝ :=
  match wind_base_drift_t t d with
  | none => none
  | some base_drift =>
      let crosswind : ℝ := |(s : ℝ) * Real.sin (radians a)|
      let actual_drift : ℝ := (base_drift : ℝ) * (crosswind / 10)
      if 0 ≤ a ∧ a ≤ 180 then some (-actual_drift) else some actual_drift

/-- MOA_CONVERSION = 1.047. -/
def MOA_CONVERSION : ℚ := 1.047

/-- CLICKS_PER_MOA = 4 (1/4 MOA scope). -/
def CLICKS_PER_MOA : ℚ := 4

/-- Python's round on ℚ: round half to even. -/
def pyRoundQ (x : ℚ) : ℤ :=
  if x - ⌊x⌋ < 1 / 2 then ⌊x⌋
  else if 1 / 2 < x - ⌊x⌋ then ⌊x⌋ + 1
  else if Even ⌊x⌋ then ⌊x⌋ else ⌊x⌋ + 1

/-- Python's round on ℝ: round half to even. -/
noncomputable def pyRoundR (x : ℝ) : ℤ :=
  if x - ⌊x⌋ < 1 / 2 then ⌊x⌋
  else if 1 / 2 < x - ⌊x⌋ then ⌊x⌋ + 1
  else if Even ⌊x⌋ then ⌊x⌋ else ⌊x⌋ + 1

/-- ElevationData(clicks, direction), direction UP or DOWN. -/
structure ElevationData where
  clicks : ℤ
  direction : String
deriving DecidableEq

/-- WindageData(clicks, direction), direction LEFT or RIGHT. -/
structure WindageData where
  clicks : ℤ
  direction : String
deriving DecidableEq

/-- BallisticCalculator.calculate_adjustments over arbitrary drop and drift
tables.  Python's `return None, None` and partial results are the Option
pair. -/
noncomputable def calculate_adjustments_t (dropT driftT : Table) (d s a : ℚ) :
    Option ElevationData × Option WindageData :=
  match get_bullet_drop_t dropT d with
  | none => (none, none)
  | some drop_inches =>
      let elevation_moa : ℚ := drop_inches / (MOA_CONVERSION * (d / 100))
      let elevation_clicks : ℤ := |pyRoundQ (elevation_moa * CLICKS_PER_MOA)|
      let elevation_direction : String := if drop_inches < 0 then "UP" else "DOWN"
      match calculate_wind_drift_t driftT d s a with
      | none => (some ⟨elevation_clicks, elevation_direction⟩, none)
      | some drift_inches =>
          let windage_moa : ℝ :=
            drift_inches / ((MOA_CONVERSION : ℝ) * ((d : ℝ) / 100))
          let windage_clicks : ℤ :=
            |pyRoundR (windage_moa * (CLICKS_PER_MOA : ℝ))|
          let windage_direction : String := if drift_inches < 0 then "LEFT" else "RIGHT"
          (some ⟨elevation_clicks, elevation_direction⟩,
           some ⟨windage_clicks, windage_direction⟩)

/-- WIND_DRIFT_DATA: drift in inches for a 10 mph crosswind (277 SIG Fury
165gr). -/
def WIND_DRIFT_DATA : Table :=
  ⟨[(100, 0.5), (200, 2.1), (300, 4.9), (400, 9.0), (500, 14.6),
    (600, 21.8), (700, 30.9), (800, 42.1), (900, 55.7), (1000, 71.9)]⟩

/-- self.drop_data: bullet drop in inches. -/
def drop_data : Table :=
  ⟨[(100, -1.92), (200, -9.73), (300, -24.62), (400, -48.11), (500, -81.23),
    (600, -125.47), (700, -182.31), (800, -253.15), (900, -339.84),
    (1000, -444.27)]⟩

/-- get_bullet_drop on the reference drop table. -/
def get_bullet_drop (d : ℚ) : Option ℚ :=
  get_bullet_drop_t drop_data d

/-- The base_drift lookup of calculate_wind_drift on the reference drift
table. -/
def wind_base_drift (d : ℚ) : Option ℚ :=
  wind_base_drift_t WIND_DRIFT_DATA d

/-- calculate_wind_drift on the reference drift table. -/
noncomputable def calculate_wind_drift (d s a : ℚ) : Option ℝ :=
  calculate_wind_drift_t WIND_DRIFT_DATA d s a

/-- calculate_adjustments on the reference tables. -/
noncomputable def calculate_adjustments (d s a : ℚ) :
    Option ElevationData × Option WindageData :=
  calculate_adjustments_t drop_data WIND_DRIFT_DATA d s a

/-- Dict lookup unfolding in if-form, for concrete evaluation. -/
theorem lookup_cons_if (d k : ℚ) (v : ℚ) (es : List (ℚ × ℚ)) :
    List.lookup d ((k, v) :: es) = if d = k then some v else List.lookup d es := by
  by_cases h : d = k
  · simp [List.lookup, h]
  · simp [List.lookup, beq_false_of_ne h, h]

/-! Generic lemmas about the scans over sorted key lists. -/

/-- Membership in an insertion step. -/
theorem mem_insertKey {x a : ℚ} : ∀ {l : List ℚ}, x ∈ insertKey a l ↔ x = a ∨ x ∈ l
  | [] => by simp [insertKey]
  | y :: ys => by
      by_cases h : a ≤ y
      · simp [insertKey, h]
      · simp only [insertKey, if_neg h, List.mem_cons, mem_insertKey (l := ys)]
        tauto

/-- sortKeys preserves membership. -/
theorem mem_sortKeys {x : ℚ} : ∀ {l : List ℚ}, x ∈ sortKeys l ↔ x ∈ l
  | [] => Iff.rfl
  | y :: ys => by
      simp only [sortKeys, mem_insertKey, List.mem_cons, mem_sortKeys (l := ys)]

/-- minKey is a lower bound of its list. -/
theorem minKey_le_of_mem {x : ℚ} : ∀ {l : List ℚ}, x ∈ l → minKey l ≤ x
  | [a], hx => by simp_all [minKey]
  | a :: b :: l, hx => by
      rcases List.mem_cons.mp hx with rfl | hx
      · exact min_le_left _ _
      · exact le_trans (min_le_right _ _) (minKey_le_of_mem hx)

/-- maxKey is an upper bound of its list. -/
theorem le_maxKey_of_mem {x : ℚ} : ∀ {l : List ℚ}, x ∈ l → x ≤ maxKey l
  | [a], hx => by simp_all [maxKey]
  | a :: b :: l, hx => by
      rcases List.mem_cons.mp hx with rfl | hx
      · exact le_max_left _ _
      · exact le_trans (le_maxKey_of_mem hx) (le_max_right _ _)

/-- On a strictly sorted list, a query strictly between an adjacent pair is
not a list element. -/
theorem not_mem_of_adj {d d1 d2 : ℚ} {l1 l2 : List ℚ}
    (hp : List.Pairwise (· < ·) (l1 ++ d1 :: d2 :: l2))
    (h1 : d1 < d) (h2 : d < d2) : d ∉ l1 ++ d1 :: d2 :: l2 := by
  intro hm
  obtain ⟨hp1, hp2, hcross⟩ := List.pairwise_append.mp hp
  rcases List.mem_append.mp hm with hm | hm
  · exact absurd (hcross d hm d1 (List.mem_cons_self _ _)) (by linarith)
  · rcases List.mem_cons.mp hm with rfl | hm
    · exact absurd h1 (lt_irrefl d)
    · rcases List.mem_cons.mp hm with rfl | hm
      · exact absurd h2 (lt_irrefl d)
      · exact absurd (List.rel_of_pairwise_cons (List.Pairwise.of_cons hp2) hm)
          (by linarith)

/-- The first-match scan returns the bracketing pair on a sorted list. -/
theorem findPair_adj {d : ℚ} :
    ∀ (l1 : List ℚ) {l l2 : List ℚ} {d1 d2 : ℚ},
      l = l1 ++ d1 :: d2 :: l2 → List.Pairwise (· < ·) l →
      d1 < d → d < d2 → findPair d l = some (d1, d2)
  | [], l, l2, d1, d2, hl, hp, h1, h2 => by
      subst hl; simp [findPair, h1, h2]
  | x :: l1, l, l2, d1, d2, hl, hp, h1, h2 => by
      subst hl
      cases hl1 : l1 with
      | nil =>
          subst hl1
          have hx : ¬(x < d ∧ d < d1) := fun h => absurd h.2 (by linarith)
          simp only [List.nil_append, List.cons_append, findPair, if_neg hx]
          simp [findPair, h1, h2]
      | cons y l1' =>
          subst hl1
          have hyd1 : y < d1 := by
            have := List.rel_of_pairwise_cons (List.Pairwise.of_cons hp)
              (show d1 ∈ l1' ++ d1 :: d2 :: l2 from
                List.mem_append_right _ (List.mem_cons_self _ _))
            exact this
          have hx : ¬(x < d ∧ d < y) := fun h => absurd h.2 (by linarith)
          simp only [List.cons_append, findPair, if_neg hx]
          exact findPair_adj (y :: l1') rfl (List.Pairwise.of_cons hp) h1 h2

/-- The first-match scan finds a pair whenever the query is strictly inside
the range of a sorted list it does not belong to. -/
theorem findPair_between {d : ℚ} :
    ∀ {l : List ℚ}, List.Pairwise (· < ·) l → d ∉ l →
      (∃ x ∈ l, x < d) → (∃ y ∈ l, d < y) →
      ∃ d1 d2, findPair d l = some (d1, d2)
  | [], _, _, hx, _ => by simp at hx
  | [a], _, _, hx, hy => by
      obtain ⟨x, hx, hxd⟩ := hx
      obtain ⟨y, hy, hdy⟩ := hy
      simp_all
      linarith
  | a :: b :: rest, hp, hmem, hx, hy => by
      by_cases hdb : d < b
      · have had : a < d := by
          obtain ⟨x, hxm, hxd⟩ := hx
          rcases List.mem_cons.mp hxm with rfl | hxm
          · exact hxd
          · rcases List.mem_cons.mp hxm with rfl | hxm
            · linarith
            · have := List.rel_of_pairwise_cons (List.Pairwise.of_cons hp) hxm
              linarith
        exact ⟨a, b, by simp [findPair, had, hdb]⟩
      · have hbd : b < d := by
          rcases lt_or_eq_of_le (not_lt.mp hdb) with h | h
          · exact h
          · exact absurd (h ▸ List.mem_cons_of_mem a (List.mem_cons_self b rest)) hmem
        have hy' : ∃ y ∈ b :: rest, d < y := by
          obtain ⟨y, hym, hdy⟩ := hy
          rcases List.mem_cons.mp hym with rfl | hym
          · have hab := List.rel_of_pairwise_cons hp (List.mem_cons_self b rest)
            linarith
          · exact ⟨y, hym, hdy⟩
        have hg : ¬(a < d ∧ d < b) := fun h => absurd h.2 hdb
        simp only [findPair, if_neg hg]
        exact findPair_between (List.Pairwise.of_cons hp)
          (fun h => hmem (List.mem_cons_of_mem a h)) ⟨b, List.mem_cons_self _ _, hbd⟩ hy'

/-- The assign-in-place scan never fires when the whole list is on one side
of the query. -/
theorem baseLoop_skip (t : Table) (d : ℚ) :
    ∀ (l : List ℚ) (acc : Option ℚ),
      ((∀ x ∈ l, d < x) ∨ (∀ x ∈ l, x < d)) → baseLoop t d l acc = acc
  | [], _, _ => rfl
  | [_], _, _ => rfl
  | d1 :: d2 :: rest, acc, h => by
      have hg : ¬(d1 < d ∧ d < d2) := by
        rcases h with h | h
        · exact fun hc => absurd hc.1 (not_lt.mpr (h d1 (List.mem_cons_self _ _)).le)
        · exact fun hc => absurd hc.2
            (not_lt.mpr (h d2 (List.mem_cons_of_mem _ (List.mem_cons_self _ _))).le)
      rw [baseLoop, if_neg hg]
      exact baseLoop_skip t d (d2 :: rest) acc
        (h.imp (fun h x hx => h x (List.mem_cons_of_mem _ hx))
               (fun h x hx => h x (List.mem_cons_of_mem _ hx)))

/-- The assign-in-place scan computes the interpolation at the bracketing
pair of a sorted list: the pair fires once and is never overwritten. -/
theorem baseLoop_adj {t : Table} {d : ℚ} :
    ∀ (l1 : List ℚ) {l l2 : List ℚ} {d1 d2 : ℚ} (acc : Option ℚ),
      l = l1 ++ d1 :: d2 :: l2 → List.Pairwise (· < ·) l →
      d1 < d → d < d2 → baseLoop t d l acc = some (interpVal t d1 d2 d)
  | [], l, l2, d1, d2, acc, hl, hp, h1, h2 => by
      subst hl
      simp only [List.nil_append] at hp ⊢
      rw [baseLoop, if_pos ⟨h1, h2⟩]
      refine baseLoop_skip t d (d2 :: l2) _ (Or.inl ?_)
      intro x hx
      rcases List.mem_cons.mp hx with rfl | hx
      · exact h2
      · have := List.rel_of_pairwise_cons (List.Pairwise.of_cons hp) hx
        linarith
  | x :: l1, l, l2, d1, d2, acc, hl, hp, h1, h2 => by
      subst hl
      cases hl1 : l1 with
      | nil =>
          subst hl1
          have hx : ¬(x < d ∧ d < d1) := fun h => absurd h.2 (by linarith)
          simp only [List.cons_append, List.nil_append] at hp ⊢
          rw [baseLoop, if_neg hx]
          exact baseLoop_adj [] acc rfl (List.Pairwise.of_cons hp) h1 h2
      | cons y l1' =>
          subst hl1
          have hyd1 : y < d1 :=
            List.rel_of_pairwise_cons (List.Pairwise.of_cons hp)
              (List.mem_append_right _ (List.mem_cons_self _ _))
          have hx : ¬(x < d ∧ d < y) := fun h => absurd h.2 (by linarith)
          simp only [List.cons_append] at hp ⊢
          rw [baseLoop, if_neg hx]
          exact baseLoop_adj (y :: l1') acc rfl (List.Pairwise.of_cons hp) h1 h2

/-- The assign-in-place scan keeps a some accumulator some. -/
theorem baseLoop_some_acc (t : Table) (d : ℚ) :
    ∀ (l : List ℚ) (v : ℚ), ∃ w, baseLoop t d l (some v) = some w
  | [], v => ⟨v, rfl⟩
  | [_], v => ⟨v, rfl⟩
  | d1 :: d2 :: rest, v => by
      by_cases hg : d1 < d ∧ d < d2
      · rw [baseLoop, if_pos hg]
        exact baseLoop_some_acc t d (d2 :: rest) _
      · rw [baseLoop, if_neg hg]
        exact baseLoop_some_acc t d (d2 :: rest) v

/-- If the first-match scan finds a pair, the assign-in-place scan ends
some. -/
theorem baseLoop_some_of_findPair (t : Table) (d : ℚ) :
    ∀ (l : List ℚ) (p : ℚ × ℚ) (acc : Option ℚ), findPair d l = some p →
      ∃ w, baseLoop t d l acc = some w
  | [], p, acc, h => by simp [findPair] at h
  | [_], p, acc, h => by simp [findPair] at h
  | d1 :: d2 :: rest, p, acc, h => by
      by_cases hg : d1 < d ∧ d < d2
      · rw [baseLoop, if_pos hg]
        exact baseLoop_some_acc t d (d2 :: rest) _
      · rw [baseLoop, if_neg hg]
        rw [findPair, if_neg hg] at h
        exact baseLoop_some_of_findPair t d (d2 :: rest) p acc h

/-! Facts about the two reference tables. -/

theorem drop_keys_eq :
    drop_data.keys = [100, 200, 300, 400, 500, 600, 700, 800, 900, 1000] := by
  norm_num [drop_data, Table.keys]

theorem drift_keys_eq :
    WIND_DRIFT_DATA.keys = [100, 200, 300, 400, 500, 600, 700, 800, 900, 1000] := by
  norm_num [WIND_DRIFT_DATA, Table.keys]

theorem drop_sorted_eq :
    sortKeys drop_data.keys = [100, 200, 300, 400, 500, 600, 700, 800, 900, 1000] := by
  norm_num [sortKeys, insertKey, drop_keys_eq]

theorem drift_sorted_eq :
    sortKeys WIND_DRIFT_DATA.keys =
      [100, 200, 300, 400, 500, 600, 700, 800, 900, 1000] := by
  norm_num [sortKeys, insertKey, drift_keys_eq]

theorem drop_pairwise : List.Pairwise (· < ·) (sortKeys drop_data.keys) := by
  rw [drop_sorted_eq]
  norm_num [List.pairwise_cons]

theorem drift_pairwise : List.Pairwise (· < ·) (sortKeys WIND_DRIFT_DATA.keys) := by
  rw [drift_sorted_eq]
  norm_num [List.pairwise_cons]

theorem drop_min_eq : minKey (sortKeys drop_data.keys) = 100 := by
  rw [drop_sorted_eq]
  norm_num [minKey]

theorem drop_max_eq : maxKey (sortKeys drop_data.keys) = 1000 := by
  rw [drop_sorted_eq]
  norm_num [maxKey]

/-! Characterizations of the two lookups. -/

/-- get_bullet_drop on an exact key hit. -/
theorem get_bullet_drop_t_mem (t : Table) {d : ℚ} (h : d ∈ t.keys) :
    get_bullet_drop_t t d = some (t.val d) := by
  simp only [get_bullet_drop_t]
  rw [if_pos h]

/-- The base_drift lookup on an exact key hit. -/
theorem wind_base_drift_t_mem (t : Table) {d : ℚ} (h : d ∈ t.keys) :
    wind_base_drift_t t d = some (t.val d) := by
  rw [wind_base_drift_t, if_pos h]

/-- get_bullet_drop strictly between an adjacent pair of the sorted keys. -/
theorem get_bullet_drop_t_adj (t : Table) {d d1 d2 : ℚ} (l1 l2 : List ℚ)
    (hl : sortKeys t.keys = l1 ++ d1 :: d2 :: l2)
    (hp : List.Pairwise (· < ·) (sortKeys t.keys))
    (h1 : d1 < d) (h2 : d < d2) :
    get_bullet_drop_t t d = some (interpVal t d1 d2 d) := by
  have hnm : d ∉ sortKeys t.keys := by
    rw [hl]
    exact not_mem_of_adj (hl ▸ hp) h1 h2
  have hnk : d ∉ t.keys := fun h => hnm (mem_sortKeys.mpr h)
  have hd1m : d1 ∈ sortKeys t.keys := by
    rw [hl]
    exact List.mem_append_right _ (List.mem_cons_self _ _)
  have hd2m : d2 ∈ sortKeys t.keys := by
    rw [hl]
    exact List.mem_append_right _ (List.mem_cons_of_mem _ (List.mem_cons_self _ _))
  have hrange : ¬(d < minKey (sortKeys t.keys) ∨ maxKey (sortKeys t.keys) < d) :=
    not_or.mpr ⟨not_lt.mpr (le_trans (minKey_le_of_mem hd1m) h1.le),
                not_lt.mpr (le_trans h2.le (le_maxKey_of_mem hd2m))⟩
  have hfp : findPair d (sortKeys t.keys) = some (d1, d2) := findPair_adj l1 hl hp h1 h2
  simp only [get_bullet_drop_t]
  rw [if_neg hnk, if_neg hrange, hfp]

/-- The base_drift lookup strictly between an adjacent pair of the sorted
keys. -/
theorem wind_base_drift_t_adj (t : Table) {d d1 d2 : ℚ} (l1 l2 : List ℚ)
    (hl : sortKeys t.keys = l1 ++ d1 :: d2 :: l2)
    (hp : List.Pairwise (· < ·) (sortKeys t.keys))
    (h1 : d1 < d) (h2 : d < d2) :
    wind_base_drift_t t d = some (interpVal t d1 d2 d) := by
  have hnm : d ∉ sortKeys t.keys := by
    rw [hl]
    exact not_mem_of_adj (hl ▸ hp) h1 h2
  have hnk : d ∉ t.keys := fun h => hnm (mem_sortKeys.mpr h)
  rw [wind_base_drift_t, if_neg hnk, hl]
  exact baseLoop_adj l1 none rfl (hl ▸ hp) h1 h2

/-- Any in-range query has a drop value. -/
theorem get_bullet_drop_in_range {d : ℚ} (h1 : 100 ≤ d) (h2 : d ≤ 1000) :
    ∃ v, get_bullet_drop d = some v := by
  by_cases hk : d ∈ drop_data.keys
  · exact ⟨_, get_bullet_drop_t_mem drop_data hk⟩
  · have hns : d ∉ sortKeys drop_data.keys := fun h => hk (mem_sortKeys.mp h)
    have h100 : (100 : ℚ) ∈ sortKeys drop_data.keys := by rw [drop_sorted_eq]; simp
    have h1000 : (1000 : ℚ) ∈ sortKeys drop_data.keys := by rw [drop_sorted_eq]; simp
    have hlt : 100 < d :=
      h1.lt_of_ne fun h => hk (h ▸ (by rw [drop_keys_eq]; simp))
    have hgt : d < 1000 :=
      h2.lt_of_ne fun h => hk (h ▸ (by rw [drop_keys_eq]; simp))
    obtain ⟨d1, d2, hfp⟩ :=
      findPair_between drop_pairwise hns ⟨100, h100, hlt⟩ ⟨1000, h1000, hgt⟩
    refine ⟨interpVal drop_data d1 d2 d, ?_⟩
    simp only [get_bullet_drop, get_bullet_drop_t]
    rw [if_neg hk,
        if_neg (not_or.mpr ⟨by rw [drop_min_eq]; exact not_lt.mpr h1,
                            by rw [drop_max_eq]; exact not_lt.mpr h2⟩), hfp]

/-- Any in-range query has a base drift. -/
theorem wind_base_drift_in_range {d : ℚ} (h1 : 100 ≤ d) (h2 : d ≤ 1000) :
    ∃ v, wind_base_drift d = some v := by
  by_cases hk : d ∈ WIND_DRIFT_DATA.keys
  · exact ⟨_, wind_base_drift_t_mem WIND_DRIFT_DATA hk⟩
  · have hns : d ∉ sortKeys WIND_DRIFT_DATA.keys := fun h => hk (mem_sortKeys.mp h)
    have h100 : (100 : ℚ) ∈ sortKeys WIND_DRIFT_DATA.keys := by
      rw [drift_sorted_eq]; simp
    have h1000 : (1000 : ℚ) ∈ sortKeys WIND_DRIFT_DATA.keys := by
      rw [drift_sorted_eq]; simp
    have hlt : 100 < d :=
      h1.lt_of_ne fun h => hk (h ▸ (by rw [drift_keys_eq]; simp))
    have hgt : d < 1000 :=
      h2.lt_of_ne fun h => hk (h ▸ (by rw [drift_keys_eq]; simp))
    obtain ⟨d1, d2, hfp⟩ :=
      findPair_between drift_pairwise hns ⟨100, h100, hlt⟩ ⟨1000, h1000, hgt⟩
    have := baseLoop_some_of_findPair WIND_DRIFT_DATA d
      (sortKeys WIND_DRIFT_DATA.keys) (d1, d2) none hfp
    obtain ⟨w, hw⟩ := this
    refine ⟨w, ?_⟩
    rw [wind_base_drift, wind_base_drift_t, if_neg hk]
    exact hw

/-! Properties of round half to even, proved once over any archimedean
floor field and instantiated at ℚ and ℝ. -/

/-- Round half to even is an odd function. -/
theorem pyRound_shape_neg {α : Type} [LinearOrderedField α] [FloorRing α]
    (f : α → ℤ)
    (hf : ∀ x : α, f x =
      if x - ⌊x⌋ < 1 / 2 then ⌊x⌋
      else if 1 / 2 < x - ⌊x⌋ then ⌊x⌋ + 1
      else if Even ⌊x⌋ then ⌊x⌋ else ⌊x⌋ + 1)
    (x : α) : f (-x) = -f x := by
  have hfl : (⌊x⌋ : α) ≤ x := Int.floor_le x
  have hfu : x < ⌊x⌋ + 1 := Int.lt_floor_add_one x
  by_cases hz : x - (⌊x⌋ : α) = 0
  · have hx : x = ((⌊x⌋ : ℤ) : α) := by linarith
    have hneg : ⌊-x⌋ = -⌊x⌋ := by
      conv_lhs => rw [hx, ← Int.cast_neg]
      exact Int.floor_intCast _
    have hR : f x = ⌊x⌋ := by
      rw [hf x, if_pos (show x - (⌊x⌋ : α) < 1 / 2 by rw [hz]; norm_num)]
    have hL : f (-x) = -⌊x⌋ := by
      rw [hf (-x), hneg,
          if_pos (show -x - ((-⌊x⌋ : ℤ) : α) < 1 / 2 by push_cast; nlinarith)]
    rw [hL, hR]
  · have h0 : 0 < x - (⌊x⌋ : α) := lt_of_le_of_ne (by linarith) (Ne.symm hz)
    have h1 : x - (⌊x⌋ : α) < 1 := by linarith
    have hneg : ⌊-x⌋ = -⌊x⌋ - 1 :=
      Int.floor_eq_iff.mpr ⟨by push_cast; linarith, by push_cast; linarith⟩
    rcases lt_trichotomy (x - (⌊x⌋ : α)) (1 / 2) with hlt | heq | hgt
    · have hR : f x = ⌊x⌋ := by rw [hf x, if_pos hlt]
      have hL : f (-x) = -⌊x⌋ - 1 + 1 := by
        rw [hf (-x), hneg,
            if_neg (show ¬(-x - ((-⌊x⌋ - 1 : ℤ) : α) < 1 / 2) by push_cast; linarith),
            if_pos (show (1 : α) / 2 < -x - ((-⌊x⌋ - 1 : ℤ) : α) by push_cast; linarith)]
      rw [hL, hR]
      omega
    · have hR : f x = if Even ⌊x⌋ then ⌊x⌋ else ⌊x⌋ + 1 := by
        rw [hf x, if_neg (by linarith), if_neg (by linarith)]
      have hL : f (-x) =
          if Even (-⌊x⌋ - 1) then -⌊x⌋ - 1 else -⌊x⌋ - 1 + 1 := by
        rw [hf (-x), hneg,
            if_neg (show ¬(-x - ((-⌊x⌋ - 1 : ℤ) : α) < 1 / 2) by push_cast; linarith),
            if_neg (show ¬((1 : α) / 2 < -x - ((-⌊x⌋ - 1 : ℤ) : α)) by push_cast; linarith)]
      rw [hL, hR]
      by_cases hev : Even ⌊x⌋
      · have hev2 : ¬Even (-⌊x⌋ - 1) := by
          simp only [Int.even_iff] at hev ⊢
          omega
        rw [if_pos hev, if_neg hev2]
        omega
      · have hev2 : Even (-⌊x⌋ - 1) := by
          simp only [Int.even_iff] at hev ⊢
          omega
        rw [if_neg hev, if_pos hev2]
        omega
    · have hR : f x = ⌊x⌋ + 1 := by
        rw [hf x, if_neg (by linarith), if_pos hgt]
      have hL : f (-x) = -⌊x⌋ - 1 := by
        rw [hf (-x), hneg,
            if_pos (show -x - ((-⌊x⌋ - 1 : ℤ) : α) < 1 / 2 by push_cast; linarith)]
      rw [hL, hR]
      omega

/-- Round half to even is nonnegative on nonnegative inputs. -/
theorem pyRound_shape_nonneg {α : Type} [LinearOrderedField α] [FloorRing α]
    (f : α → ℤ)
    (hf : ∀ x : α, f x =
      if x - ⌊x⌋ < 1 / 2 then ⌊x⌋
      else if 1 / 2 < x - ⌊x⌋ then ⌊x⌋ + 1
      else if Even ⌊x⌋ then ⌊x⌋ else ⌊x⌋ + 1)
    {x : α} (h : 0 ≤ x) : 0 ≤ f x := by
  have hfl : 0 ≤ ⌊x⌋ := Int.floor_nonneg.mpr h
  rw [hf x]
  split_ifs <;> omega

theorem pyRoundQ_neg (x : ℚ) : pyRoundQ (-x) = -pyRoundQ x :=
  pyRound_shape_neg pyRoundQ (fun _ => rfl) x

theorem pyRoundQ_nonneg {x : ℚ} (h : 0 ≤ x) : 0 ≤ pyRoundQ x :=
  pyRound_shape_nonneg pyRoundQ (fun _ => rfl) h

theorem pyRoundR_neg (x : ℝ) : pyRoundR (-x) = -pyRoundR x :=
  pyRound_shape_neg pyRoundR (fun _ => rfl) x

theorem pyRoundR_nonneg {x : ℝ} (h : 0 ≤ x) : 0 ≤ pyRoundR x :=
  pyRound_shape_nonneg pyRoundR (fun _ => rfl) h

/-- abs commutes with round half to even, on ℚ. -/
theorem pyRoundQ_abs (x : ℚ) : |pyRoundQ x| = pyRoundQ |x| := by
  rcases le_or_lt 0 x with h | h
  · rw [abs_of_nonneg h, abs_of_nonneg (pyRoundQ_nonneg h)]
  · have h1 : 0 ≤ pyRoundQ (-x) := pyRoundQ_nonneg (by linarith)
    have h2 : pyRoundQ (-x) = -pyRoundQ x := pyRoundQ_neg x
    rw [abs_of_neg h, abs_of_nonpos (by omega), h2]

/-- abs commutes with round half to even, on ℝ. -/
theorem pyRoundR_abs (x : ℝ) : |pyRoundR x| = pyRoundR |x| := by
  rcases le_or_lt 0 x with h | h
  · rw [abs_of_nonneg h, abs_of_nonneg (pyRoundR_nonneg h)]
  · have h1 : 0 ≤ pyRoundR (-x) := pyRoundR_nonneg (by linarith)
    have h2 : pyRoundR (-x) = -pyRoundR x := pyRoundR_neg x
    rw [abs_of_neg h, abs_of_nonpos (by omega), h2]

/-- pyRoundR agrees with pyRoundQ on rational inputs. -/
theorem pyRound_cast (q : ℚ) : pyRoundR (q : ℝ) = pyRoundQ q := by
  have hfl : ⌊(q : ℝ)⌋ = ⌊q⌋ := Rat.floor_cast q
  have hlt1 : ((q : ℝ) - ((⌊q⌋ : ℤ) : ℝ) < 1 / 2) ↔ (q - (⌊q⌋ : ℚ) < 1 / 2) := by
    constructor
    · intro h
      exact Rat.cast_lt.mp (show ((q - (⌊q⌋ : ℚ) : ℚ) : ℝ) < (((1 : ℚ) / 2 : ℚ) : ℝ) by
        push_cast
        exact h)
    · intro h
      have h' : ((q - (⌊q⌋ : ℚ) : ℚ) : ℝ) < (((1 : ℚ) / 2 : ℚ) : ℝ) := Rat.cast_lt.mpr h
      push_cast at h'
      exact h'
  have hlt2 : ((1 : ℝ) / 2 < (q : ℝ) - ((⌊q⌋ : ℤ) : ℝ)) ↔ ((1 : ℚ) / 2 < q - (⌊q⌋ : ℚ)) := by
    constructor
    · intro h
      exact Rat.cast_lt.mp (show (((1 : ℚ) / 2 : ℚ) : ℝ) < ((q - (⌊q⌋ : ℚ) : ℚ) : ℝ) by
        push_cast
        exact h)
    · intro h
      have h' : (((1 : ℚ) / 2 : ℚ) : ℝ) < ((q - (⌊q⌋ : ℚ) : ℚ) : ℝ) := Rat.cast_lt.mpr h
      push_cast at h'
      exact h'
  rw [pyRoundR, pyRoundQ, hfl]
  by_cases h1 : q - (⌊q⌋ : ℚ) < 1 / 2
  · rw [if_pos h1, if_pos (hlt1.mpr h1)]
  · rw [if_neg h1, if_neg (fun hc => h1 (hlt1.mp hc))]
    by_cases h2 : (1 : ℚ) / 2 < q - (⌊q⌋ : ℚ)
    · rw [if_pos h2, if_pos (hlt2.mpr h2)]
    · rw [if_neg h2, if_neg (fun hc => h2 (hlt2.mp hc))]

/-! Characterizations of calculate_wind_drift and calculate_adjustments. -/

/-- calculate_wind_drift when the base lookup misses. -/
theorem calculate_wind_drift_t_none (t : Table) {d : ℚ} (s a : ℚ)
    (hb : wind_base_drift_t t d = none) :
    calculate_wind_drift_t t d s a = none := by
  simp only [calculate_wind_drift_t, hb]

/-- calculate_wind_drift when the base lookup hits. -/
theorem calculate_wind_drift_t_some (t : Table) {d : ℚ} (s a : ℚ) {base : ℚ}
    (hb : wind_base_drift_t t d = some base) :
    calculate_wind_drift_t t d s a =
      some ((if 0 ≤ a ∧ a ≤ 180 then (-1 : ℝ) else 1) *
        ((base : ℝ) * (|(s : ℝ) * Real.sin (radians a)| / 10))) := by
  simp only [calculate_wind_drift_t, hb]
  by_cases hA : 0 ≤ a ∧ a ≤ 180
  · rw [if_pos hA, if_pos hA]
    congr 1
    ring
  · rw [if_neg hA, if_neg hA]
    congr 1
    ring

/-- calculate_adjustments when the drop lookup misses. -/
theorem calculate_adjustments_t_none (dropT driftT : Table) {d : ℚ} (s a : ℚ)
    (h : get_bullet_drop_t dropT d = none) :
    calculate_adjustments_t dropT driftT d s a = (none, none) := by
  simp only [calculate_adjustments_t, h]

/-- Elevation component when the drop lookup hits. -/
theorem calculate_adjustments_t_fst (dropT driftT : Table) {d : ℚ} (s a : ℚ)
    {v : ℚ} (h : get_bullet_drop_t dropT d = some v) :
    (calculate_adjustments_t dropT driftT d s a).1 =
      some ⟨|pyRoundQ (v / (MOA_CONVERSION * (d / 100)) * CLICKS_PER_MOA)|,
            if v < 0 then "UP" else "DOWN"⟩ := by
  simp only [calculate_adjustments_t, h]
  cases calculate_wind_drift_t driftT d s a <;> rfl

/-- Windage component when the drop lookup hits but the drift lookup
misses. -/
theorem calculate_adjustments_t_snd_none (dropT driftT : Table) {d : ℚ} (s a : ℚ)
    {v : ℚ} (h : get_bullet_drop_t dropT d = some v)
    (hw : calculate_wind_drift_t driftT d s a = none) :
    (calculate_adjustments_t dropT driftT d s a).2 = none := by
  simp only [calculate_adjustments_t, h, hw]

/-- Windage component when both lookups hit. -/
theorem calculate_adjustments_t_snd_some (dropT driftT : Table) {d : ℚ} (s a : ℚ)
    {v : ℚ} {w : ℝ} (h : get_bullet_drop_t dropT d = some v)
    (hw : calculate_wind_drift_t driftT d s a = some w) :
    (calculate_adjustments_t dropT driftT d s a).2 =
      some ⟨|pyRoundR (w / ((MOA_CONVERSION : ℝ) * ((d : ℝ) / 100)) * (CLICKS_PER_MOA : ℝ))|,
            if w < 0 then "LEFT" else "RIGHT"⟩ := by
  simp only [calculate_adjustments_t, h, hw]

/-- Concrete evaluation of get_bullet_drop, used to discharge witness
hypotheses. -/
theorem drop_eval_550 : get_bullet_drop 550 = some (-103.35) := by
  norm_num [get_bullet_drop, get_bullet_drop_t, drop_data, Table.keys, Table.val,
    sortKeys, insertKey, minKey, maxKey, findPair, interpVal, lookup_cons_if]

theorem drop_eval_575 : get_bullet_drop 575 = some (-114.41) := by
  norm_num [get_bullet_drop, get_bullet_drop_t, drop_data, Table.keys, Table.val,
    sortKeys, insertKey, minKey, maxKey, findPair, interpVal, lookup_cons_if]

theorem drop_eval_500 : get_bullet_drop 500 = some (-81.23) := by
  norm_num [get_bullet_drop, get_bullet_drop_t, drop_data, Table.keys, Table.val,
    sortKeys, insertKey, minKey, maxKey, findPair, interpVal, lookup_cons_if]

theorem drop_eval_300 : get_bullet_drop 300 = some (-24.62) := by
  norm_num [get_bullet_drop, get_bullet_drop_t, drop_data, Table.keys, Table.val,
    sortKeys, insertKey, minKey, maxKey, findPair, interpVal, lookup_cons_if]

theorem drop_eval_50 : get_bullet_drop 50 = none := by
  norm_num [get_bullet_drop, get_bullet_drop_t, drop_data, Table.keys, Table.val,
    sortKeys, insertKey, minKey, maxKey, findPair, interpVal, lookup_cons_if]

theorem drift_eval_500 : wind_base_drift 500 = some 14.6 := by
  norm_num [wind_base_drift, wind_base_drift_t, WIND_DRIFT_DATA, Table.keys, Table.val,
    sortKeys, insertKey, baseLoop, findPair, interpVal, lookup_cons_if]

theorem drift_eval_200 : wind_base_drift 200 = some 2.1 := by
  norm_num [wind_base_drift, wind_base_drift_t, WIND_DRIFT_DATA, Table.keys, Table.val,
    sortKeys, insertKey, baseLoop, findPair, interpVal, lookup_cons_if]

/-! The claims. -/

/-- Claim C1: for every query distance strictly between two adjacent table
keys d1 < d2, both the drop lookup (get_bullet_drop) and the drift lookup
inside calculate_wind_drift return exactly the linear interpolation
v1 + (v2 - v1) * (query - d1) / (d2 - d1) of the two neighboring table
values. -/
theorem claim_C1_strict_interpolation (d d1 d2 : ℚ) (l1 l2 l1' l2' : List ℚ)
    (hdrop : sortKeys drop_data.keys = l1 ++ d1 :: d2 :: l2)
    (hdrift : sortKeys WIND_DRIFT_DATA.keys = l1' ++ d1 :: d2 :: l2')
    (h1 : d1 < d) (h2 : d < d2) :
    get_bullet_drop d =
      some (drop_data.val d1 +
        (drop_data.val d2 - drop_data.val d1) * ((d - d1) / (d2 - d1))) ∧
    wind_base_drift d =
      some (WIND_DRIFT_DATA.val d1 +
        (WIND_DRIFT_DATA.val d2 - WIND_DRIFT_DATA.val d1) * ((d - d1) / (d2 - d1))) :=
  ⟨get_bullet_drop_t_adj drop_data l1 l2 hdrop drop_pairwise h1 h2,
   wind_base_drift_t_adj WIND_DRIFT_DATA l1' l2' hdrift drift_pairwise h1 h2⟩

theorem claim_C1_witness :
    get_bullet_drop 250 = some (-17.175) ∧ wind_base_drift 250 = some 3.5 := by
  have h := claim_C1_strict_interpolation 250 200 300
    [100] [400, 500, 600, 700, 800, 900, 1000]
    [100] [400, 500, 600, 700, 800, 900, 1000]
    (by rw [drop_sorted_eq]; rfl) (by rw [drift_sorted_eq]; rfl) (by norm_num) (by norm_num)
  constructor
  · rw [h.1]
    norm_num [drop_data, Table.val, lookup_cons_if]
  · rw [h.2]
    norm_num [WIND_DRIFT_DATA, Table.val, lookup_cons_if]

/-- Claim C2: for every query distance strictly below 100 or strictly above
1000, both get_bullet_drop and calculate_wind_drift return None; no
extrapolation beyond the tabulated range. -/
theorem claim_C2_out_of_range_none (d s a : ℚ) (h : d < 100 ∨ 1000 < d) :
    get_bullet_drop d = none ∧ calculate_wind_drift d s a = none := by
  have hk : d ∉ drop_data.keys := by
    rw [drop_keys_eq]
    intro hm
    simp only [List.mem_cons, List.not_mem_nil, or_false] at hm
    rcases h with h | h <;>
      rcases hm with rfl | rfl | rfl | rfl | rfl | rfl | rfl | rfl | rfl | rfl <;> linarith
  have hk' : d ∉ WIND_DRIFT_DATA.keys := by
    rw [drift_keys_eq]
    intro hm
    simp only [List.mem_cons, List.not_mem_nil, or_false] at hm
    rcases h with h | h <;>
      rcases hm with rfl | rfl | rfl | rfl | rfl | rfl | rfl | rfl | rfl | rfl <;> linarith
  have hbase : wind_base_drift_t WIND_DRIFT_DATA d = none := by
    rw [wind_base_drift_t, if_neg hk']
    refine baseLoop_skip WIND_DRIFT_DATA d _ none ?_
    rw [drift_sorted_eq]
    rcases h with h | h
    · left
      intro x hx
      simp only [List.mem_cons, List.not_mem_nil, or_false] at hx
      rcases hx with rfl | rfl | rfl | rfl | rfl | rfl | rfl | rfl | rfl | rfl <;> linarith
    · right
      intro x hx
      simp only [List.mem_cons, List.not_mem_nil, or_false] at hx
      rcases hx with rfl | rfl | rfl | rfl | rfl | rfl | rfl | rfl | rfl | rfl <;> linarith
  constructor
  · simp only [get_bullet_drop, get_bullet_drop_t]
    rw [if_neg hk,
        if_pos (show d < minKey (sortKeys drop_data.keys) ∨
                     maxKey (sortKeys drop_data.keys) < d by
          rw [drop_min_eq, drop_max_eq]; exact h)]
  · rw [calculate_wind_drift]
    exact calculate_wind_drift_t_none WIND_DRIFT_DATA s a hbase

theorem claim_C2_witness :
    get_bullet_drop 50 = none ∧ calculate_wind_drift 50 5 45 = none :=
  claim_C2_out_of_range_none 50 5 45 (Or.inl (by norm_num))

/-- Claim C6: for every query distance exactly equal to a table key, the drop
lookup and the drift lookup inside calculate_wind_drift return the stored
table value exactly, with no interpolation. -/
theorem claim_C6_exact_key (d : ℚ) :
    (d ∈ drop_data.keys → get_bullet_drop d = some (drop_data.val d)) ∧
    (d ∈ WIND_DRIFT_DATA.keys → wind_base_drift d = some (WIND_DRIFT_DATA.val d)) :=
  ⟨fun h => get_bullet_drop_t_mem drop_data h,
   fun h => wind_base_drift_t_mem WIND_DRIFT_DATA h⟩

theorem claim_C6_witness :
    get_bullet_drop 500 = some (-81.23) ∧ wind_base_drift 500 = some 14.6 := by
  have h1 := (claim_C6_exact_key 500).1 (by rw [drop_keys_eq]; simp)
  have h2 := (claim_C6_exact_key 500).2 (by rw [drift_keys_eq]; simp)
  constructor
  · rw [h1]
    norm_num [drop_data, Table.val, lookup_cons_if]
  · rw [h2]
    norm_num [WIND_DRIFT_DATA, Table.val, lookup_cons_if]

/-- Claim C9: for every query strictly between two adjacent keys of the
(monotonic) drop table, the interpolated value lies between the two
neighboring stored values; and interpolating at 550 between 500 (-81.23) and
600 (-125.47) yields -103.35. -/
theorem claim_C9_between_values :
    (∀ d d1 d2 : ℚ, ∀ l1 l2 : List ℚ,
      sortKeys drop_data.keys = l1 ++ d1 :: d2 :: l2 → d1 < d → d < d2 →
      ∀ r, get_bullet_drop d = some r →
        min (drop_data.val d1) (drop_data.val d2) ≤ r ∧
        r ≤ max (drop_data.val d1) (drop_data.val d2)) ∧
    get_bullet_drop 550 = some (-103.35) := by
  constructor
  · intro d d1 d2 l1 l2 hl h1 h2 r hr
    have hadj := get_bullet_drop_t_adj drop_data l1 l2 hl drop_pairwise h1 h2
    rw [get_bullet_drop] at hr
    have hr' : interpVal drop_data d1 d2 d = r :=
      Option.some.inj ((hadj.symm.trans hr))
    have ht0 : 0 < (d - d1) / (d2 - d1) := div_pos (by linarith) (by linarith)
    have ht1 : (d - d1) / (d2 - d1) < 1 := by
      rw [div_lt_one (by linarith)]
      linarith
    rw [← hr']
    rw [interpVal]
    rcases le_total (drop_data.val d1) (drop_data.val d2) with hv | hv
    · rw [min_eq_left hv, max_eq_right hv]
      constructor
      · nlinarith
      · nlinarith
    · rw [min_eq_right hv, max_eq_left hv]
      constructor
      · nlinarith
      · nlinarith
  · exact drop_eval_550

theorem claim_C9_witness :
    get_bullet_drop 575 = some (-114.41) ∧
    min (drop_data.val 500) (drop_data.val 600) ≤ (-114.41 : ℚ) ∧
    (-114.41 : ℚ) ≤ max (drop_data.val 500) (drop_data.val 600) := by
  refine ⟨drop_eval_575, ?_⟩
  exact claim_C9_between_values.1 575 500 600
    [100, 200, 300, 400] [700, 800, 900, 1000]
    (by rw [drop_sorted_eq]; rfl) (by norm_num) (by norm_num) _ drop_eval_575

/-- Claim C10: for every query distance d with 100 <= d <= 1000, the drop
lookup returns a value and the base-drift lookup inside calculate_wind_drift
finds a base drift: the fall-through None branches are unreachable
in-range. -/
theorem claim_C10_in_range_some (d : ℚ) (h1 : 100 ≤ d) (h2 : d ≤ 1000) :
    (∃ v, get_bullet_drop d = some v) ∧ (∃ b, wind_base_drift d = some b) :=
  ⟨get_bullet_drop_in_range h1 h2, wind_base_drift_in_range h1 h2⟩

theorem claim_C10_witness :
    (∃ v, get_bullet_drop 777 = some v) ∧ (∃ b, wind_base_drift 777 = some b) :=
  claim_C10_in_range_some 777 (by norm_num) (by norm_num)

/-! Wind and adjustment helper lemmas. -/

theorem radians_0 : radians 0 = 0 := by
  rw [radians]
  push_cast
  ring

theorem radians_30 : radians 30 = Real.pi / 6 := by
  rw [radians]
  push_cast
  ring

theorem radians_90 : radians 90 = Real.pi / 2 := by
  rw [radians]
  push_cast
  ring

theorem radians_180 : radians 180 = Real.pi := by
  rw [radians]
  push_cast
  ring

theorem radians_270 : radians 270 = Real.pi / 2 + Real.pi := by
  rw [radians]
  push_cast
  ring

/-- The code's abs-after-round equals round-after-abs for elevation. -/
theorem abs_pyRoundQ_mul (m : ℚ) :
    |pyRoundQ (m * CLICKS_PER_MOA)| = pyRoundQ (|m| * CLICKS_PER_MOA) := by
  rw [pyRoundQ_abs, abs_mul,
      abs_of_nonneg (show (0 : ℚ) ≤ CLICKS_PER_MOA by rw [CLICKS_PER_MOA]; norm_num)]

/-- The code's abs-after-round equals round-after-abs for windage. -/
theorem abs_pyRoundR_mul (m : ℝ) :
    |pyRoundR (m * (CLICKS_PER_MOA : ℝ))| = pyRoundR (|m| * (CLICKS_PER_MOA : ℝ)) := by
  rw [pyRoundR_abs, abs_mul,
      abs_of_nonneg (show (0 : ℝ) ≤ (CLICKS_PER_MOA : ℝ) by
        rw [CLICKS_PER_MOA]; norm_num)]

/-- Windage click rounding on rational inputs reduces to ℚ. -/
theorem windage_clicks_rat (w d : ℚ) :
    pyRoundR ((w : ℝ) / ((MOA_CONVERSION : ℝ) * ((d : ℝ) / 100)) * (CLICKS_PER_MOA : ℝ)) =
      pyRoundQ (w / (MOA_CONVERSION * (d / 100)) * CLICKS_PER_MOA) := by
  have hc : ((w / (MOA_CONVERSION * (d / 100)) * CLICKS_PER_MOA : ℚ) : ℝ) =
      (w : ℝ) / ((MOA_CONVERSION : ℝ) * ((d : ℝ) / 100)) * (CLICKS_PER_MOA : ℝ) := by
    push_cast
    ring
  rw [← hc, pyRound_cast]

/-- calculate_wind_drift at the test point distance 500, 10 mph, 90 deg. -/
theorem wind_drift_eval_500_90 :
    calculate_wind_drift 500 10 90 = some (((-14.6 : ℚ) : ℝ)) := by
  rw [calculate_wind_drift, calculate_wind_drift_t_some WIND_DRIFT_DATA 10 90 drift_eval_500,
      radians_90, Real.sin_pi_div_two]
  push_cast
  norm_num [abs_of_nonneg]

/-- calculate_wind_drift at distance 500, 10 mph, 270 deg. -/
theorem wind_drift_eval_500_270 :
    calculate_wind_drift 500 10 270 = some (((14.6 : ℚ) : ℝ)) := by
  rw [calculate_wind_drift, calculate_wind_drift_t_some WIND_DRIFT_DATA 10 270 drift_eval_500,
      radians_270, Real.sin_add_pi, Real.sin_pi_div_two]
  push_cast
  norm_num [abs_of_nonneg]

/-- Claim C3: for every in-range distance, wind speed s >= 0 and wind
angle a, calculate_wind_drift returns base_drift * (|s * sin(radians a)| / 10)
negated when 0 <= a <= 180 and kept positive otherwise; in particular
(500, 10, 90) yields -14.6 and (500, 10, 270) yields +14.6. -/
theorem claim_C3_wind_formula :
    (∀ d s a : ℚ, 100 ≤ d → d ≤ 1000 → 0 ≤ s →
      ∃ base : ℚ, wind_base_drift d = some base ∧
        calculate_wind_drift d s a =
          some ((if 0 ≤ a ∧ a ≤ 180 then (-1 : ℝ) else 1) *
            ((base : ℝ) * (|(s : ℝ) * Real.sin (radians a)| / 10)))) ∧
    calculate_wind_drift 500 10 90 = some (-(14.6 : ℝ)) ∧
    calculate_wind_drift 500 10 270 = some (14.6 : ℝ) := by
  refine ⟨?_, ?_, ?_⟩
  · intro d s a h1 h2 _
    obtain ⟨base, hb⟩ := wind_base_drift_in_range h1 h2
    exact ⟨base, hb, calculate_wind_drift_t_some WIND_DRIFT_DATA s a hb⟩
  · rw [wind_drift_eval_500_90]
    norm_num
  · rw [wind_drift_eval_500_270]
    norm_num

theorem claim_C3_witness :
    calculate_wind_drift 200 5 30 = some (-(0.525 : ℝ)) := by
  obtain ⟨base, hb, h⟩ :=
    claim_C3_wind_formula.1 200 5 30 (by norm_num) (by norm_num) (by norm_num)
  have hbase : base = 2.1 := (Option.some.inj (drift_eval_200.symm.trans hb)).symm
  subst hbase
  rw [h, radians_30, Real.sin_pi_div_six]
  push_cast
  norm_num [abs_of_nonneg]

/-- Claim C7: for every in-range distance and wind speed, a wind angle of 0
or 180 has zero crosswind and the drift is exactly 0. -/
theorem claim_C7_no_crosswind (d s : ℚ) (h1 : 100 ≤ d) (h2 : d ≤ 1000) :
    calculate_wind_drift d s 0 = some 0 ∧ calculate_wind_drift d s 180 = some 0 := by
  obtain ⟨base, hb⟩ := wind_base_drift_in_range h1 h2
  constructor
  · rw [calculate_wind_drift, calculate_wind_drift_t_some WIND_DRIFT_DATA s 0 hb,
        radians_0, Real.sin_zero]
    norm_num
  · rw [calculate_wind_drift, calculate_wind_drift_t_some WIND_DRIFT_DATA s 180 hb,
        radians_180, Real.sin_pi]
    norm_num

theorem claim_C7_witness :
    calculate_wind_drift 400 25 0 = some 0 ∧ calculate_wind_drift 400 25 180 = some 0 :=
  claim_C7_no_crosswind 400 25 (by norm_num) (by norm_num)

/-- Claim C4: for every in-range distance and signed offset, the engine
computes moa = offset / (1.047 * (d / 100)) and clicks = round(|moa| * 4);
at distance 500 with drop -81.23 this gives 62 clicks UP. -/
theorem claim_C4_adjustment_formula :
    (∀ d s a : ℚ, 100 ≤ d → d ≤ 1000 →
      (∀ v : ℚ, get_bullet_drop d = some v →
        (calculate_adjustments d s a).1 =
          some ⟨pyRoundQ (|v / (MOA_CONVERSION * (d / 100))| * CLICKS_PER_MOA),
                if v < 0 then "UP" else "DOWN"⟩) ∧
      (∀ w : ℝ, calculate_wind_drift d s a = some w →
        (calculate_adjustments d s a).2 =
          some ⟨pyRoundR (|w / ((MOA_CONVERSION : ℝ) * ((d : ℝ) / 100))| * (CLICKS_PER_MOA : ℝ)),
                if w < 0 then "LEFT" else "RIGHT"⟩)) ∧
    (∀ s a : ℚ, (calculate_adjustments 500 s a).1 = some ⟨62, "UP"⟩) := by
  constructor
  · intro d s a h1 h2
    constructor
    · intro v hv
      rw [calculate_adjustments,
          calculate_adjustments_t_fst drop_data WIND_DRIFT_DATA s a hv,
          abs_pyRoundQ_mul]
    · intro w hw
      obtain ⟨v, hv⟩ := get_bullet_drop_in_range h1 h2
      rw [calculate_adjustments,
          calculate_adjustments_t_snd_some drop_data WIND_DRIFT_DATA s a hv hw,
          abs_pyRoundR_mul]
  · intro s a
    rw [calculate_adjustments,
        calculate_adjustments_t_fst drop_data WIND_DRIFT_DATA s a drop_eval_500]
    simp only [Option.some.injEq, ElevationData.mk.injEq]
    constructor
    · norm_num [MOA_CONVERSION, CLICKS_PER_MOA, pyRoundQ, Int.even_iff]
    · norm_num

theorem claim_C4_witness :
    (calculate_adjustments 500 10 90).1 = some ⟨62, "UP"⟩ ∧
    (calculate_adjustments 500 10 90).2 = some ⟨11, "LEFT"⟩ := by
  have hparts := claim_C4_adjustment_formula.1 500 10 90 (by norm_num) (by norm_num)
  constructor
  · rw [hparts.1 (-81.23) drop_eval_500]
    simp only [Option.some.injEq, ElevationData.mk.injEq]
    constructor
    · have habs : |(-81.23 : ℚ) / (MOA_CONVERSION * ((500 : ℚ) / 100))| =
          81.23 / (MOA_CONVERSION * ((500 : ℚ) / 100)) := by
        rw [abs_of_nonpos (by norm_num [MOA_CONVERSION])]
        ring
      rw [habs]
      norm_num [MOA_CONVERSION, CLICKS_PER_MOA, pyRoundQ, Int.even_iff]
    · norm_num
  · rw [hparts.2 (((-14.6 : ℚ) : ℝ)) wind_drift_eval_500_90]
    simp only [Option.some.injEq, WindageData.mk.injEq]
    constructor
    · have hcast : |((-14.6 : ℚ) : ℝ) / ((MOA_CONVERSION : ℝ) * (((500 : ℚ) : ℝ) / 100))| *
          (CLICKS_PER_MOA : ℝ) =
          ((|(-14.6 : ℚ) / (MOA_CONVERSION * ((500 : ℚ) / 100))| * CLICKS_PER_MOA : ℚ) : ℝ) := by
        push_cast
        ring
      rw [hcast, pyRound_cast]
      have habs : |(-14.6 : ℚ) / (MOA_CONVERSION * ((500 : ℚ) / 100))| =
          14.6 / (MOA_CONVERSION * ((500 : ℚ) / 100)) := by
        rw [abs_of_nonpos (by norm_num [MOA_CONVERSION])]
        ring
      rw [habs]
      norm_num [MOA_CONVERSION, CLICKS_PER_MOA, pyRoundQ, Int.even_iff]
    · norm_num

/-- Claim C5: the engine never fails for missing data: an unavailable drop
lookup yields (None, None); an available drop with an unavailable drift
yields a valid elevation result and an unavailable windage result. -/
theorem claim_C5_missing_data :
    (∀ d s a : ℚ, get_bullet_drop d = none →
      calculate_adjustments d s a = (none, none)) ∧
    (∀ (dropT driftT : Table) (d s a v : ℚ),
      get_bullet_drop_t dropT d = some v →
      calculate_wind_drift_t driftT d s a = none →
      (calculate_adjustments_t dropT driftT d s a).1 =
        some ⟨|pyRoundQ (v / (MOA_CONVERSION * (d / 100)) * CLICKS_PER_MOA)|,
              if v < 0 then "UP" else "DOWN"⟩ ∧
      (calculate_adjustments_t dropT driftT d s a).2 = none) := by
  constructor
  · intro d s a h
    rw [calculate_adjustments]
    exact calculate_adjustments_t_none drop_data WIND_DRIFT_DATA s a h
  · intro dropT driftT d s a v hv hw
    exact ⟨calculate_adjustments_t_fst dropT driftT s a hv,
           calculate_adjustments_t_snd_none dropT driftT s a hv hw⟩

/-- A drift table with narrower coverage than the drop table, exercising the
drop-available, drift-unavailable branch of the engine. -/
def shortDriftTable : Table := ⟨[(100, 0.5), (200, 2.1)]⟩

theorem shortDrift_none_300 : calculate_wind_drift_t shortDriftTable 300 10 90 = none := by
  apply calculate_wind_drift_t_none
  norm_num [wind_base_drift_t, shortDriftTable, Table.keys, sortKeys, insertKey, baseLoop]

theorem claim_C5_witness :
    calculate_adjustments 50 10 90 = (none, none) ∧
    (calculate_adjustments_t drop_data shortDriftTable 300 10 90).1 =
      some ⟨31, "UP"⟩ ∧
    (calculate_adjustments_t drop_data shortDriftTable 300 10 90).2 = none := by
  have h2 := claim_C5_missing_data.2 drop_data shortDriftTable 300 10 90 (-24.62)
    drop_eval_300 shortDrift_none_300
  refine ⟨claim_C5_missing_data.1 50 10 90 drop_eval_50, ?_, h2.2⟩
  rw [h2.1]
  simp only [Option.some.injEq, ElevationData.mk.injEq]
  constructor
  · norm_num [MOA_CONVERSION, CLICKS_PER_MOA, pyRoundQ, Int.even_iff]
  · norm_num

/-- Claim C8: whenever calculate_adjustments produces a result, clicks are
non-negative and the direction label is the valid one for its axis,
determined by the sign of the offset: UP iff the drop is strictly negative,
LEFT iff the signed drift is strictly negative. -/
theorem claim_C8_click_invariants (d s a : ℚ) :
    (∀ e : ElevationData, (calculate_adjustments d s a).1 = some e →
      0 ≤ e.clicks ∧ (e.direction = "UP" ∨ e.direction = "DOWN") ∧
      ∃ v : ℚ, get_bullet_drop d = some v ∧
        e.direction = (if v < 0 then "UP" else "DOWN")) ∧
    (∀ w : WindageData, (calculate_adjustments d s a).2 = some w →
      0 ≤ w.clicks ∧ (w.direction = "LEFT" ∨ w.direction = "RIGHT") ∧
      ∃ dr : ℝ, calculate_wind_drift d s a = some dr ∧
        w.direction = (if dr < 0 then "LEFT" else "RIGHT")) := by
  constructor
  · intro e he
    rcases hdrop : get_bullet_drop d with _ | v
    · rw [calculate_adjustments,
          calculate_adjustments_t_none drop_data WIND_DRIFT_DATA s a hdrop] at he
      simp at he
    · rw [calculate_adjustments,
          calculate_adjustments_t_fst drop_data WIND_DRIFT_DATA s a hdrop] at he
      have he' : e = ⟨|pyRoundQ (v / (MOA_CONVERSION * (d / 100)) * CLICKS_PER_MOA)|,
          if v < 0 then "UP" else "DOWN"⟩ := (Option.some.inj he).symm
      subst he'
      refine ⟨abs_nonneg _, ?_, v, rfl, rfl⟩
      by_cases hv : v < 0
      · left
        simp [hv]
      · right
        simp [hv]
  · intro w hw
    rcases hdrop : get_bullet_drop d with _ | v
    · rw [calculate_adjustments,
          calculate_adjustments_t_none drop_data WIND_DRIFT_DATA s a hdrop] at hw
      simp at hw
    · rcases hdrift : calculate_wind_drift d s a with _ | dr
      · rw [calculate_adjustments,
            calculate_adjustments_t_snd_none drop_data WIND_DRIFT_DATA s a hdrop hdrift] at hw
        simp at hw
      · rw [calculate_adjustments,
            calculate_adjustments_t_snd_some drop_data WIND_DRIFT_DATA s a hdrop hdrift] at hw
        have hw' : w = ⟨|pyRoundR (dr / ((MOA_CONVERSION : ℝ) * ((d : ℝ) / 100)) *
            (CLICKS_PER_MOA : ℝ))|,
            if dr < 0 then "LEFT" else "RIGHT"⟩ := (Option.some.inj hw).symm
        subst hw'
        refine ⟨abs_nonneg _, ?_, dr, rfl, rfl⟩
        by_cases hdr : dr < 0
        · left
          simp [hdr]
        · right
          simp [hdr]

theorem claim_C8_witness :
    (0 ≤ (ElevationData.mk 62 "UP").clicks ∧
      ((ElevationData.mk 62 "UP").direction = "UP" ∨
        (ElevationData.mk 62 "UP").direction = "DOWN") ∧
      ∃ v : ℚ, get_bullet_drop 500 = some v ∧
        (ElevationData.mk 62 "UP").direction = (if v < 0 then "UP" else "DOWN")) ∧
    (0 ≤ (WindageData.mk 11 "LEFT").clicks ∧
      ((WindageData.mk 11 "LEFT").direction = "LEFT" ∨
        (WindageData.mk 11 "LEFT").direction = "RIGHT") ∧
      ∃ dr : ℝ, calculate_wind_drift 500 10 90 = some dr ∧
        (WindageData.mk 11 "LEFT").direction = (if dr < 0 then "LEFT" else "RIGHT")) := by
  have hfst : (calculate_adjustments 500 10 90).1 = some ⟨62, "UP"⟩ := by
    rw [calculate_adjustments,
        calculate_adjustments_t_fst drop_data WIND_DRIFT_DATA 10 90 drop_eval_500]
    simp only [Option.some.injEq, ElevationData.mk.injEq]
    constructor
    · norm_num [MOA_CONVERSION, CLICKS_PER_MOA, pyRoundQ, Int.even_iff]
    · norm_num
  have hsnd : (calculate_adjustments 500 10 90).2 = some ⟨11, "LEFT"⟩ := by
    rw [calculate_adjustments,
        calculate_adjustments_t_snd_some drop_data WIND_DRIFT_DATA 10 90 drop_eval_500
          wind_drift_eval_500_90, windage_clicks_rat]
    simp only [Option.some.injEq, WindageData.mk.injEq]
    constructor
    · norm_num [MOA_CONVERSION, CLICKS_PER_MOA, pyRoundQ, Int.even_iff]
    · norm_num
  exact ⟨(claim_C8_click_invariants 500 10 90).1 ⟨62, "UP"⟩ hfst,
         (claim_C8_click_invariants 500 10 90).2 ⟨11, "LEFT"⟩ hsnd⟩
